import Mathlib

/-!
Verification of the core services of a WhatsApp selling-service backend:
the AI provider-failover orchestrator (ai.service.ts) and the WhatsApp
connection supervisor (whatsapp.service.ts). Each definition is a shallow
embedding of the corresponding TypeScript function; effectful steps
(network calls, timers) are represented by explicit state passing and
boolean oracles for the outcome of external invocations.
-/

/-! ## AI service (src/backend/src/services/ai.service.ts) -/

/-- In-memory provider configuration row (`AIProviderConfig` as held in
`AIService.providerConfigs`). `hasProvider` records whether
`AIService.providers` has an entry for this id: `loadProviders` pushes the
config before switching on the type and `continue`s on an unsupported type,
so a config may lack a provider instance. -/
structure AIProviderConfig where
  id : Nat
  dailyLimit : Nat
  usedToday : Nat
  priority : Int
  hasProvider : Bool
deriving DecidableEq, Repr

/-- The availability test of `getAvailableProvider`: `usedToday < dailyLimit`
and the providers map holds an instance for this id. -/
def providerAvailable (c : AIProviderConfig) : Bool :=
  decide (c.usedToday < c.dailyLimit) && c.hasProvider

/-- Embedding of `AIService.getAvailableProvider`: linear scan of `providerConfigs` (kept
in priority-descending load order) returning the first config with
`usedToday < dailyLimit` whose provider instance exists. The index into the
list is returned alongside the config to model mutation of the aliased
config object. -/
def getAvailableProvider : List AIProviderConfig → Option (Nat × AIProviderConfig)
  | [] => none
  | c :: rest =>
    if providerAvailable c then some (0, c)
    else (getAvailableProvider rest).map (fun ic => (ic.1 + 1, ic.2))

/-- In-place mutation of `config.usedToday` for the config at index `i`
(the selected config is aliased into the list, so assigning to it updates
the list entry). -/
def setUsedToday : List AIProviderConfig → Nat → Nat → List AIProviderConfig
  | [], _, _ => []
  | c :: rest, 0, v => { c with usedToday := v } :: rest
  | c :: rest, i + 1, v => c :: setUsedToday rest i v

/-- Outcome of one `generateResponse` call. `ok i` is a successful return
using the provider at pool index `i`; `allExhausted` is the
"All AI providers have reached their daily limits" throw; `genFailed e`
is the final `throw lastError` after the retry budget is spent, where `e`
is the pool index of the provider whose error was last observed. -/
inductive GenOutcome where
  | ok (idx : Nat)
  | allExhausted
  | genFailed (lastErr : Option Nat)
deriving DecidableEq, Repr

/-- Result of a `generateResponse` call: the outcome, the provider pool
after the call's mutations, and the trace of pool indices whose `generate`
was actually invoked, in invocation order. -/
structure GenResult where
  outcome : GenOutcome
  pool : List AIProviderConfig
  trace : List Nat
deriving DecidableEq, Repr

/-- The retry loop of `AIService.generateResponse`. `oracle attempt idx`
tells whether the `provider.generate` invocation at loop iteration
`attempt` on the provider at pool index `idx` succeeds (true) or throws
(false). On success `config.usedToday` is incremented and the call
returns; on failure `lastError` is recorded, `config.usedToday` is set to
`config.dailyLimit`, and the loop continues. The `fuel` argument counts
the remaining iterations of `for (let attempt = 0; attempt < maxRetries; ...)`. -/
def genLoop (oracle : Nat → Nat → Bool) :
    Nat → Nat → List AIProviderConfig → Option Nat → List Nat → GenResult
  | 0, _, pool, lastErr, acc => ⟨GenOutcome.genFailed lastErr, pool, acc.reverse⟩
  | fuel + 1, attempt, pool, lastErr, acc =>
    match getAvailableProvider pool with
    | none => ⟨GenOutcome.allExhausted, pool, acc.reverse⟩
    | some (i, c) =>
      if oracle attempt i then
        ⟨GenOutcome.ok i, setUsedToday pool i (c.usedToday + 1), (i :: acc).reverse⟩
      else
        genLoop oracle fuel (attempt + 1) (setUsedToday pool i c.dailyLimit) (some i) (i :: acc)

/-- Constant `AIService.maxRetries = 3`. -/
def maxRetries : Nat := 3

/-- Embedding of `AIService.generateResponse`, abstracted over the per-attempt success
oracle: runs the bounded retry loop from attempt 0 on the current pool. -/
def generateResponse (oracle : Nat → Nat → Bool) (pool : List AIProviderConfig) : GenResult :=
  genLoop oracle maxRetries 0 pool none []

/-- A sequence of `generateResponse` calls, one oracle per call, threading
the in-memory pool through; returns the outcomes in call order and the
final pool. -/
def runCalls : List (Nat → Nat → Bool) → List AIProviderConfig →
    List GenOutcome × List AIProviderConfig
  | [], pool => ([], pool)
  | o :: os, pool =>
    let r := generateResponse o pool
    let rest := runCalls os r.pool
    (r.outcome :: rest.1, rest.2)

/-- The three-provider pool of the spec scenario: priorities [30, 20, 10]
(list held in priority-descending order, as `loadProviders` orders by
priority desc), daily limits [5, 5, 5], all `usedToday = 0`, every provider
instantiated. -/
def demoPool : List AIProviderConfig :=
  [⟨1, 5, 0, 30, true⟩, ⟨2, 5, 0, 20, true⟩, ⟨3, 5, 0, 10, true⟩]

/-- The pool is sorted by priority descending (the order `loadProviders`
requests from persistence). -/
def sortedByPriorityDesc (pool : List AIProviderConfig) : Prop :=
  pool.Pairwise (fun a b => b.priority ≤ a.priority)

/-- Unfolding of the scan at an available head. -/
theorem getAvailableProvider_cons_pos {a : AIProviderConfig}
    {rest : List AIProviderConfig} (ha : providerAvailable a = true) :
    getAvailableProvider (a :: rest) = some (0, a) := by
  simp [getAvailableProvider, ha]

/-- Unfolding of the scan at an unavailable head. -/
theorem getAvailableProvider_cons_neg {a : AIProviderConfig}
    {rest : List AIProviderConfig} (ha : ¬ providerAvailable a = true) :
    getAvailableProvider (a :: rest) =
      (getAvailableProvider rest).map (fun ic => (ic.1 + 1, ic.2)) := by
  simp [getAvailableProvider, ha]

/-- Function `getAvailableProvider` returns `none` exactly when no config passes the
availability test. -/
theorem getAvailableProvider_eq_none {pool : List AIProviderConfig} :
    getAvailableProvider pool = none ↔ ∀ c ∈ pool, providerAvailable c = false := by
  induction pool with
  | nil => simp [getAvailableProvider]
  | cons a rest ih =>
    by_cases ha : providerAvailable a
    · simp [getAvailableProvider_cons_pos ha, ha]
    · rw [getAvailableProvider_cons_neg ha, Option.map_eq_none', ih,
        List.forall_mem_cons]
      rw [Bool.not_eq_true] at ha
      simp [ha]

/-- When `getAvailableProvider` returns a config, that config sits at the
returned index and passes the availability test. -/
theorem getAvailableProvider_some {pool : List AIProviderConfig} {i : Nat}
    {c : AIProviderConfig} (h : getAvailableProvider pool = some (i, c)) :
    pool.get? i = some c ∧ providerAvailable c = true := by
  induction pool generalizing i with
  | nil => simp [getAvailableProvider] at h
  | cons a rest ih =>
    by_cases ha : providerAvailable a
    · rw [getAvailableProvider_cons_pos ha] at h
      obtain ⟨hi, rfl⟩ : 0 = i ∧ a = c := by simpa [eq_comm] using h
      subst hi
      exact ⟨rfl, ha⟩
    · rw [getAvailableProvider_cons_neg ha, Option.map_eq_some'] at h
      obtain ⟨⟨j, c0⟩, hrest, hpair⟩ := h
      obtain ⟨hj, rfl⟩ : j + 1 = i ∧ c0 = c := by simpa using hpair
      subst hj
      exact ih hrest

/-- On a priority-descending pool, the config picked by the linear scan has
priority at least that of every available config: the scan returns the
highest-priority available provider. -/
theorem getAvailableProvider_maximal {pool : List AIProviderConfig}
    (hs : sortedByPriorityDesc pool) {i : Nat} {c : AIProviderConfig}
    (h : getAvailableProvider pool = some (i, c)) :
    ∀ c' ∈ pool, providerAvailable c' = true → c'.priority ≤ c.priority := by
  induction pool generalizing i with
  | nil => simp [getAvailableProvider] at h
  | cons a rest ih =>
    rw [sortedByPriorityDesc, List.pairwise_cons] at hs
    obtain ⟨hhead, htail⟩ := hs
    by_cases ha : providerAvailable a
    · rw [getAvailableProvider_cons_pos ha] at h
      obtain ⟨hi, rfl⟩ : 0 = i ∧ a = c := by simpa [eq_comm] using h
      intro c' hmem hc'avail
      rcases List.mem_cons.mp hmem with rfl | hc'
      · exact le_refl _
      · exact hhead c' hc'
    · rw [getAvailableProvider_cons_neg ha, Option.map_eq_some'] at h
      obtain ⟨⟨j, c0⟩, hrest, hpair⟩ := h
      obtain ⟨hj, rfl⟩ : j + 1 = i ∧ c0 = c := by simpa using hpair
      intro c' hmem hc'avail
      rcases List.mem_cons.mp hmem with rfl | hc'
      · exact absurd hc'avail (by simpa using ha)
      · exact ih htail hrest c' hc' hc'avail

/-- Claim C1: with three providers of priorities [30, 20, 10], daily limits
[5, 5, 5] and usedToday all 0, sixteen generateResponse calls whose provider
invocations all succeed route generations 1-5 to the priority-30 provider
(pool index 0), 6-10 to the priority-20 provider (index 1), 11-15 to the
priority-10 provider (index 2), and the 16th call fails with the
all-exhausted error; and in general, on a priority-descending pool the
selection returns an available provider of maximal priority among the
available ones, or none when no provider qualifies. -/
theorem claim_C1 :
    ((runCalls (List.replicate 16 (fun _ _ => true)) demoPool).1 =
      List.replicate 5 (GenOutcome.ok 0) ++ List.replicate 5 (GenOutcome.ok 1) ++
      List.replicate 5 (GenOutcome.ok 2) ++ [GenOutcome.allExhausted]) ∧
    (demoPool.map AIProviderConfig.priority = [30, 20, 10] ∧
      demoPool.map AIProviderConfig.dailyLimit = [5, 5, 5] ∧
      demoPool.map AIProviderConfig.usedToday = [0, 0, 0]) ∧
    (∀ pool : List AIProviderConfig, sortedByPriorityDesc pool →
      (∀ i c, getAvailableProvider pool = some (i, c) →
        pool.get? i = some c ∧ providerAvailable c = true ∧
        ∀ c' ∈ pool, providerAvailable c' = true → c'.priority ≤ c.priority) ∧
      (getAvailableProvider pool = none → ∀ c ∈ pool, providerAvailable c = false)) := by
  refine ⟨by decide, ⟨by decide, by decide, by decide⟩, ?_⟩
  intro pool hs
  constructor
  · intro i c h
    obtain ⟨h1, h2⟩ := getAvailableProvider_some h
    exact ⟨h1, h2, getAvailableProvider_maximal hs h⟩
  · intro h
    exact getAvailableProvider_eq_none.mp h

/-- The demo pool is priority-descending. -/
theorem demoPool_sorted : sortedByPriorityDesc demoPool := by
  unfold sortedByPriorityDesc demoPool
  decide

theorem claim_C1_witness :
    sortedByPriorityDesc demoPool ∧
    (∀ i c, getAvailableProvider demoPool = some (i, c) →
      demoPool.get? i = some c ∧ providerAvailable c = true ∧
      ∀ c' ∈ demoPool, providerAvailable c' = true → c'.priority ≤ c.priority) :=
  ⟨demoPool_sorted, (claim_C1.2.2 demoPool demoPool_sorted).1⟩

/-- Looking up an index other than the mutated one is unchanged. -/
theorem setUsedToday_get?_ne {pool : List AIProviderConfig} {i j v : Nat}
    (h : j ≠ i) : (setUsedToday pool i v).get? j = pool.get? j := by
  induction pool generalizing i j with
  | nil => simp [setUsedToday]
  | cons a rest ih =>
    cases i with
    | zero =>
      cases j with
      | zero => exact absurd rfl h
      | succ j => simp [setUsedToday]
    | succ i =>
      cases j with
      | zero => simp [setUsedToday]
      | succ j => simpa [setUsedToday] using ih (fun hj => h (by omega))

/-- Looking up the mutated index yields the config with its `usedToday`
replaced (all other fields, `dailyLimit` in particular, unchanged). -/
theorem setUsedToday_get?_eq {pool : List AIProviderConfig} {i v : Nat}
    {c : AIProviderConfig} (h : pool.get? i = some c) :
    (setUsedToday pool i v).get? i = some { c with usedToday := v } := by
  induction pool generalizing i with
  | nil => simp at h
  | cons a rest ih =>
    cases i with
    | zero =>
      obtain rfl : a = c := by simpa using h
      simp [setUsedToday]
    | succ i =>
      simpa [setUsedToday] using ih (by simpa using h)

/-- Every member of the mutated pool is either an untouched member of the
original pool or the mutated copy of the config at the mutated index. -/
theorem mem_setUsedToday {pool : List AIProviderConfig} {i v : Nat}
    {c c' : AIProviderConfig} (hget : pool.get? i = some c)
    (h : c' ∈ setUsedToday pool i v) :
    c' ∈ pool ∨ c' = { c with usedToday := v } := by
  induction pool generalizing i with
  | nil => simp [setUsedToday] at h
  | cons a rest ih =>
    cases i with
    | zero =>
      obtain rfl : a = c := by simpa using hget
      rcases List.mem_cons.mp h with rfl | hc
      · exact Or.inr rfl
      · exact Or.inl (List.mem_cons_of_mem _ hc)
    | succ i =>
      have hget' : rest.get? i = some c := by simpa using hget
      rcases List.mem_cons.mp h with rfl | hc
      · exact Or.inl (List.mem_cons_self _ _)
      · rcases ih hget' hc with h1 | h2
        · exact Or.inl (List.mem_cons_of_mem _ h1)
        · exact Or.inr h2

/-- An available config has strictly remaining quota. -/
theorem providerAvailable_lt {c : AIProviderConfig}
    (h : providerAvailable c = true) : c.usedToday < c.dailyLimit := by
  simp only [providerAvailable, Bool.and_eq_true, decide_eq_true_eq] at h
  exact h.1

/-- Unfolding of the retry loop when a provider is available. -/
theorem genLoop_succ_some {oracle : Nat → Nat → Bool} {fuel attempt : Nat}
    {pool : List AIProviderConfig} {lastErr : Option Nat} {acc : List Nat}
    {i : Nat} {c : AIProviderConfig}
    (hav : getAvailableProvider pool = some (i, c)) :
    genLoop oracle (fuel + 1) attempt pool lastErr acc =
      if oracle attempt i then
        ⟨GenOutcome.ok i, setUsedToday pool i (c.usedToday + 1), (i :: acc).reverse⟩
      else
        genLoop oracle fuel (attempt + 1) (setUsedToday pool i c.dailyLimit)
          (some i) (i :: acc) := by
  simp only [genLoop, hav]

/-- Unfolding of the retry loop when no provider is available. -/
theorem genLoop_succ_none {oracle : Nat → Nat → Bool} {fuel attempt : Nat}
    {pool : List AIProviderConfig} {lastErr : Option Nat} {acc : List Nat}
    (hav : getAvailableProvider pool = none) :
    genLoop oracle (fuel + 1) attempt pool lastErr acc =
      ⟨GenOutcome.allExhausted, pool, acc.reverse⟩ := by
  simp only [genLoop, hav]

/-- Main loop invariant: starting from an accumulator whose entries all
point at exhausted configs, the loop produces a duplicate-free invocation
trace, surfaces the last-invoked provider as the final error, and leaves
every invoked-and-failed config with `usedToday = dailyLimit`. -/
theorem genLoop_spec (oracle : Nat → Nat → Bool) (fuel attempt : Nat)
    (pool : List AIProviderConfig) (lastErr : Option Nat) (acc : List Nat)
    (hacc : ∀ j ∈ acc, ∃ c, pool.get? j = some c ∧ c.usedToday = c.dailyLimit)
    (hnodup : acc.Nodup) (hlast : lastErr = acc.head?) :
    (genLoop oracle fuel attempt pool lastErr acc).trace.Nodup ∧
    (∀ e, (genLoop oracle fuel attempt pool lastErr acc).outcome =
        GenOutcome.genFailed e →
      e = (genLoop oracle fuel attempt pool lastErr acc).trace.getLast?) ∧
    (∀ j ∈ (genLoop oracle fuel attempt pool lastErr acc).trace,
      (∀ i, (genLoop oracle fuel attempt pool lastErr acc).outcome =
          GenOutcome.ok i → j ≠ i) →
      ∃ c, (genLoop oracle fuel attempt pool lastErr acc).pool.get? j = some c ∧
        c.usedToday = c.dailyLimit) := by
  induction fuel generalizing attempt pool lastErr acc with
  | zero =>
    refine ⟨by simpa [genLoop] using hnodup, ?_, ?_⟩
    · intro e he
      simp only [genLoop] at he ⊢
      obtain rfl : lastErr = e := by simpa using he
      rw [hlast, List.getLast?_reverse]
    · intro j hj _
      simp only [genLoop] at hj ⊢
      exact hacc j (List.mem_reverse.mp hj)
  | succ fuel ih =>
    cases hav : getAvailableProvider pool with
    | none =>
      refine ⟨by simpa [genLoop_succ_none hav] using hnodup, ?_, ?_⟩
      · intro e he
        simp [genLoop_succ_none hav] at he
      · intro j hj _
        simp only [genLoop_succ_none hav] at hj ⊢
        exact hacc j (List.mem_reverse.mp hj)
    | some ic =>
      obtain ⟨i, c⟩ := ic
      obtain ⟨hget, havail⟩ := getAvailableProvider_some hav
      have hlt : c.usedToday < c.dailyLimit := providerAvailable_lt havail
      have hinotin : i ∉ acc := by
        intro hi
        obtain ⟨c0, hc0, hu0⟩ := hacc i hi
        rw [hget] at hc0
        obtain rfl : c = c0 := by simpa using hc0
        omega
      rw [genLoop_succ_some hav]
      by_cases ho : oracle attempt i
      · simp only [ho, if_true]
        refine ⟨List.nodup_reverse.mpr (List.nodup_cons.mpr ⟨hinotin, hnodup⟩),
          by intro e he; simp at he, ?_⟩
        intro j hj hne
        have hji : j ≠ i := hne i rfl
        rcases List.mem_cons.mp (List.mem_reverse.mp hj) with rfl | hjacc
        · exact absurd rfl hji
        · obtain ⟨c0, hc0, hu0⟩ := hacc j hjacc
          exact ⟨c0, by rwa [setUsedToday_get?_ne hji], hu0⟩
      · simp only [ho, Bool.false_eq_true, if_false]
        apply ih
        · intro j hj
          rcases List.mem_cons.mp hj with rfl | hjacc
          · exact ⟨{ c with usedToday := c.dailyLimit }, setUsedToday_get?_eq hget, rfl⟩
          · obtain ⟨c0, hc0, hu0⟩ := hacc j hjacc
            have hji : j ≠ i := fun h => hinotin (h ▸ hjacc)
            exact ⟨c0, by rwa [setUsedToday_get?_ne hji], hu0⟩
        · simpa using ⟨hinotin, hnodup⟩
        · rfl

/-- Claim C3: within one generateResponse call, every invoked provider is
invoked at most once (a provider whose generate threw is marked
`usedToday = dailyLimit` and so is never selected again by a later attempt
of the same call); every invoked provider other than the finally successful
one ends the call with `usedToday = dailyLimit`; and when the retry budget
is exhausted the surfaced error is the one observed on the last invocation. -/
theorem claim_C3 (oracle : Nat → Nat → Bool) (pool : List AIProviderConfig) :
    (generateResponse oracle pool).trace.Nodup ∧
    (∀ e, (generateResponse oracle pool).outcome = GenOutcome.genFailed e →
      e = (generateResponse oracle pool).trace.getLast?) ∧
    (∀ j ∈ (generateResponse oracle pool).trace,
      (∀ i, (generateResponse oracle pool).outcome = GenOutcome.ok i → j ≠ i) →
      ∃ c, (generateResponse oracle pool).pool.get? j = some c ∧
        c.usedToday = c.dailyLimit) :=
  genLoop_spec oracle maxRetries 0 pool none [] (by simp) List.nodup_nil rfl

theorem claim_C3_witness :
    (generateResponse (fun _ _ => false) demoPool).outcome =
      GenOutcome.genFailed (some 2) ∧
    (some 2 : Option Nat) = (generateResponse (fun _ _ => false) demoPool).trace.getLast? :=
  ⟨by decide, (claim_C3 (fun _ _ => false) demoPool).2.1 (some 2) (by decide)⟩

/-- Claim C4: when every configured provider already has
`usedToday >= dailyLimit` at call time, generateResponse throws the
all-exhausted error on the first loop iteration with no provider invocation
(empty invocation trace) and an unchanged pool. -/
theorem claim_C4 (oracle : Nat → Nat → Bool) (pool : List AIProviderConfig)
    (h : ∀ c ∈ pool, c.dailyLimit ≤ c.usedToday) :
    generateResponse oracle pool = ⟨GenOutcome.allExhausted, pool, []⟩ := by
  have hnone : getAvailableProvider pool = none := by
    refine getAvailableProvider_eq_none.mpr (fun c hc => ?_)
    have hnlt : ¬ c.usedToday < c.dailyLimit := Nat.not_lt.mpr (h c hc)
    simp [providerAvailable, hnlt]
  show genLoop oracle maxRetries 0 pool none [] = _
  rw [show maxRetries = 2 + 1 from rfl, genLoop_succ_none hnone]
  rfl

theorem claim_C4_witness :
    (∀ c ∈ [(⟨1, 5, 5, 30, true⟩ : AIProviderConfig)], c.dailyLimit ≤ c.usedToday) ∧
    generateResponse (fun _ _ => true) [⟨1, 5, 5, 30, true⟩] =
      ⟨GenOutcome.allExhausted, [⟨1, 5, 5, 30, true⟩], []⟩ :=
  ⟨by decide, claim_C4 (fun _ _ => true) [⟨1, 5, 5, 30, true⟩] (by decide)⟩

/-- The retry loop preserves the per-provider quota bound
`usedToday <= dailyLimit`: the success path increments a counter that was
strictly below the limit, and the failure path sets it exactly to the limit. -/
theorem genLoop_quota (oracle : Nat → Nat → Bool) (fuel attempt : Nat)
    (pool : List AIProviderConfig) (lastErr : Option Nat) (acc : List Nat)
    (hinv : ∀ c ∈ pool, c.usedToday ≤ c.dailyLimit) :
    ∀ c ∈ (genLoop oracle fuel attempt pool lastErr acc).pool,
      c.usedToday ≤ c.dailyLimit := by
  induction fuel generalizing attempt pool lastErr acc with
  | zero => simpa [genLoop] using hinv
  | succ fuel ih =>
    cases hav : getAvailableProvider pool with
    | none => simpa [genLoop_succ_none hav] using hinv
    | some ic =>
      obtain ⟨i, c⟩ := ic
      obtain ⟨hget, havail⟩ := getAvailableProvider_some hav
      have hlt : c.usedToday < c.dailyLimit := providerAvailable_lt havail
      rw [genLoop_succ_some hav]
      by_cases ho : oracle attempt i
      · simp only [ho, if_true]
        intro c' hc'
        rcases mem_setUsedToday hget hc' with h1 | rfl
        · exact hinv c' h1
        · exact hlt
      · simp only [ho, Bool.false_eq_true, if_false]
        apply ih
        intro c' hc'
        rcases mem_setUsedToday hget hc' with h1 | rfl
        · exact hinv c' h1
        · exact le_refl _

/-- Claim C10: starting from a pool where every provider satisfies
`usedToday <= dailyLimit`, any sequence of generateResponse calls (with any
per-attempt success oracles) preserves `usedToday <= dailyLimit` for every
provider in the in-memory pool. -/
theorem claim_C10 (oracles : List (Nat → Nat → Bool)) (pool : List AIProviderConfig)
    (hinv : ∀ c ∈ pool, c.usedToday ≤ c.dailyLimit) :
    ∀ c ∈ (runCalls oracles pool).2, c.usedToday ≤ c.dailyLimit := by
  induction oracles generalizing pool with
  | nil => simpa [runCalls] using hinv
  | cons o os ih =>
    simp only [runCalls]
    exact ih (generateResponse o pool).pool
      (genLoop_quota o maxRetries 0 pool none [] hinv)

theorem claim_C10_witness :
    (∀ c ∈ demoPool, c.usedToday ≤ c.dailyLimit) ∧
    ∀ c ∈ (runCalls (List.replicate 4 (fun _ _ => false)) demoPool).2,
      c.usedToday ≤ c.dailyLimit :=
  ⟨by decide, claim_C10 (List.replicate 4 (fun _ _ => false)) demoPool (by decide)⟩

/-! ## WhatsApp service (src/backend/src/services/whatsapp.service.ts) -/

/-- Status `WhatsAppAccountStatus` values used by the connection supervisor. -/
inductive WhatsAppAccountStatus where
  | CONNECTING
  | CONNECTED
  | DISCONNECTED
deriving DecidableEq, Repr

/-- Constant `WhatsAppService.rateLimitWindow = 60000` milliseconds. -/
def rateLimitWindow : Nat := 60000

/-- Constant `WhatsAppService.maxMessagesPerWindow = 30`. -/
def maxMessagesPerWindow : Nat := 30

/-- Embedding of `WhatsAppService.checkRateLimit` for one recipient: filter the
recipient's queue down to entries with `now - timestamp < rateLimitWindow`,
store the pruned queue back, and admit iff the pruned count is strictly
below the cap. (In the source `now - m.timestamp` is JS subtraction, which
for a timestamp in the future is negative and hence `< window`; Nat
truncated subtraction gives 0, also `< window`, so the embedding agrees.) -/
def checkRateLimit (now : Nat) (queue : List Nat) : Bool × List Nat :=
  let recentMessages := queue.filter (fun t => decide (now - t < rateLimitWindow))
  (decide (recentMessages.length < maxMessagesPerWindow), recentMessages)

/-- Embedding of `WhatsAppService.recordMessage` for one recipient: push the current
timestamp onto the recipient's queue. -/
def recordMessage (now : Nat) (queue : List Nat) : List Nat :=
  queue ++ [now]

/-- The fields of a `WhatsAppInstance` that the send path reads:
whether `instance.socket` is non-null, the connection status, and the
reconnect counter (used by the reconnect path). -/
structure WhatsAppInstance where
  socketPresent : Bool
  status : WhatsAppAccountStatus
  reconnectAttempts : Nat
deriving DecidableEq, Repr

/-- The four user-visible outcomes of `WhatsAppService.sendMessage`:
the "WhatsApp account not connected" throw, the "Rate limit exceeded for
this recipient" throw, a successful dispatch returning the send result,
and the re-thrown underlying send error. -/
inductive SendOutcome where
  | notConnected
  | rateLimited
  | sent
  | sendFailed
deriving DecidableEq, Repr

/-- Observable result of one `sendMessage` call: the outcome, the
recipient's rate-window queue afterwards, whether `recordMessage` ran, and
whether `instance.lastActivity` was refreshed. -/
structure SendResult where
  outcome : SendOutcome
  queue : List Nat
  recorded : Bool
  lastActivityUpdated : Bool
deriving DecidableEq, Repr

/-- Embedding of `WhatsAppService.sendMessage` restricted to one account instance and
one recipient's queue. `sendSucceeds` is the oracle for the underlying
`instance.socket.sendMessage` dispatch; the presence-simulation step
swallows its own failures in the source and cannot change the outcome. -/
def sendMessage (inst : Option WhatsAppInstance) (now : Nat) (queue : List Nat)
    (sendSucceeds : Bool) : SendResult :=
  match inst with
  | none => ⟨SendOutcome.notConnected, queue, false, false⟩
  | some i =>
    if ¬ i.socketPresent = true ∨ ¬ i.status = WhatsAppAccountStatus.CONNECTED then
      ⟨SendOutcome.notConnected, queue, false, false⟩
    else
      let check := checkRateLimit now queue
      if ¬ check.1 = true then
        ⟨SendOutcome.rateLimited, check.2, false, false⟩
      else if sendSucceeds then
        ⟨SendOutcome.sent, recordMessage now check.2, true, true⟩
      else
        ⟨SendOutcome.sendFailed, check.2, false, false⟩

/-- A live, fully connected instance. -/
def connectedInstance : WhatsAppInstance :=
  ⟨true, WhatsAppAccountStatus.CONNECTED, 0⟩

/-- A sequence of `sendMessage` calls to one recipient from a connected
account, each underlying dispatch succeeding, at the given timestamps. -/
def runSends : List Nat → List Nat → List SendOutcome × List Nat
  | [], queue => ([], queue)
  | t :: ts, queue =>
    let r := sendMessage (some connectedInstance) t queue true
    let rest := runSends ts r.queue
    (r.outcome :: rest.1, rest.2)

/-- Claim C5: the rate-window check prunes entries older than the 60 s
window and admits iff the remaining count is strictly below 30; 31 sends
inside one window see the first 30 admitted and the 31st denied; a later
send after the window has elapsed is admitted again; and the recipient's
stored queue never grows beyond the cap. -/
theorem claim_C5 :
    (∀ now queue, checkRateLimit now queue =
      (decide ((queue.filter (fun t => decide (now - t < rateLimitWindow))).length <
          maxMessagesPerWindow),
        queue.filter (fun t => decide (now - t < rateLimitWindow)))) ∧
    ((runSends (List.replicate 31 1000000) []).1 =
      List.replicate 30 SendOutcome.sent ++ [SendOutcome.rateLimited]) ∧
    ((runSends (List.replicate 31 1000000 ++ [1060000]) []).1 =
      List.replicate 30 SendOutcome.sent ++
        [SendOutcome.rateLimited, SendOutcome.sent]) ∧
    (∀ now queue sendSucceeds, queue.length ≤ maxMessagesPerWindow →
      (sendMessage (some connectedInstance) now queue sendSucceeds).queue.length ≤
        maxMessagesPerWindow) := by
  refine ⟨fun now queue => rfl, by decide, by decide, ?_⟩
  intro now queue s h
  have hle : (queue.filter (fun t => decide (now - t < rateLimitWindow))).length ≤
      queue.length := List.length_filter_le _ _
  by_cases hcheck : (checkRateLimit now queue).1 = true
  · by_cases hsend : s = true
    · subst hsend
      have hlt : (queue.filter (fun t => decide (now - t < rateLimitWindow))).length <
          maxMessagesPerWindow := by
        simpa [checkRateLimit] using hcheck
      simp only [sendMessage, connectedInstance, recordMessage]
      simp only [checkRateLimit] at hcheck ⊢
      simp [hcheck]
      omega
    · rw [Bool.not_eq_true] at hsend
      subst hsend
      simp only [sendMessage, connectedInstance]
      simp only [checkRateLimit] at hcheck ⊢
      simp [hcheck]
      omega
  · simp only [sendMessage, connectedInstance]
    rw [Bool.not_eq_true] at hcheck
    simp only [checkRateLimit] at hcheck ⊢
    simp [hcheck]
    omega

theorem claim_C5_witness :
    ([(0 : Nat)].length ≤ maxMessagesPerWindow) ∧
    (sendMessage (some connectedInstance) 5 [0] true).queue.length ≤
      maxMessagesPerWindow :=
  ⟨by decide, claim_C5.2.2.2 5 [0] true (by decide)⟩

/-- Claim C9: sendMessage fails with the not-connected error exactly when
the account's instance is missing, has no socket, or is not CONNECTED;
otherwise it fails with the rate-limit error exactly when the recipient's
rate window denies admission; otherwise it either returns the delivery
result — recording the send in the rate window and refreshing
lastActivity — or re-throws the underlying send error, according to the
dispatch outcome. These are the only outcomes, checked in that order. -/
theorem claim_C9 (inst : Option WhatsAppInstance) (now : Nat) (queue : List Nat)
    (sendSucceeds : Bool) :
    (((sendMessage inst now queue sendSucceeds).outcome = SendOutcome.notConnected) ↔
      ¬ ∃ i, inst = some i ∧ i.socketPresent = true ∧
        i.status = WhatsAppAccountStatus.CONNECTED) ∧
    (∀ i, inst = some i → i.socketPresent = true →
      i.status = WhatsAppAccountStatus.CONNECTED →
      (((sendMessage inst now queue sendSucceeds).outcome = SendOutcome.rateLimited) ↔
        (checkRateLimit now queue).1 = false)) ∧
    (∀ i, inst = some i → i.socketPresent = true →
      i.status = WhatsAppAccountStatus.CONNECTED →
      (checkRateLimit now queue).1 = true →
      sendMessage inst now queue sendSucceeds =
        (if sendSucceeds then
          ⟨SendOutcome.sent, recordMessage now (checkRateLimit now queue).2, true, true⟩
        else
          ⟨SendOutcome.sendFailed, (checkRateLimit now queue).2, false, false⟩)) := by
  cases inst with
  | none =>
    refine ⟨by simp [sendMessage], fun i h => by simp at h, fun i h => by simp at h⟩
  | some i =>
    by_cases hs : i.socketPresent = true
    · by_cases hc : i.status = WhatsAppAccountStatus.CONNECTED
      · have hcond : ¬ (¬ i.socketPresent = true ∨
            ¬ i.status = WhatsAppAccountStatus.CONNECTED) := by
          simp [hs, hc]
        refine ⟨?_, ?_, ?_⟩
        · by_cases hcheck : (checkRateLimit now queue).1 = true
          · cases hsend : sendSucceeds <;>
              simp [sendMessage, hcond, hcheck, hs, hc]
          · rw [Bool.not_eq_true] at hcheck
            simp [sendMessage, hcond, hcheck, hs, hc]
        · intro i' hi' _ _
          obtain rfl : i = i' := by simpa using hi'
          by_cases hcheck : (checkRateLimit now queue).1 = true
          · cases hsend : sendSucceeds <;>
              simp [sendMessage, hcond, hcheck, hs, hc]
          · rw [Bool.not_eq_true] at hcheck
            simp [sendMessage, hcond, hcheck, hs, hc]
        · intro i' hi' _ _ hcheck
          obtain rfl : i = i' := by simpa using hi'
          cases hsend : sendSucceeds <;>
            simp [sendMessage, hcond, hcheck, hs, hc]
      · have hcond : (¬ i.socketPresent = true ∨
            ¬ i.status = WhatsAppAccountStatus.CONNECTED) := Or.inr hc
        refine ⟨by simp [sendMessage, hcond, hc], ?_, ?_⟩
        · intro i' hi' _ hconn
          obtain rfl : i = i' := by simpa using hi'
          exact absurd hconn hc
        · intro i' hi' _ hconn
          obtain rfl : i = i' := by simpa using hi'
          exact absurd hconn hc
    · have hcond : (¬ i.socketPresent = true ∨
          ¬ i.status = WhatsAppAccountStatus.CONNECTED) := Or.inl hs
      refine ⟨by simp [sendMessage, hcond, hs], ?_, ?_⟩
      · intro i' hi' hsock _
        obtain rfl : i = i' := by simpa using hi'
        exact absurd hsock hs
      · intro i' hi' hsock _
        obtain rfl : i = i' := by simpa using hi'
        exact absurd hsock hs

theorem claim_C9_witness :
    ((some connectedInstance : Option WhatsAppInstance) = some connectedInstance) ∧
    (((sendMessage (some connectedInstance) 0 (List.replicate 30 0) true).outcome =
        SendOutcome.rateLimited) ↔
      (checkRateLimit 0 (List.replicate 30 0)).1 = false) :=
  ⟨rfl, (claim_C9 (some connectedInstance) 0 (List.replicate 30 0) true).2.1
    connectedInstance rfl rfl rfl⟩

/-- Constant `WhatsAppService.maxReconnectAttempts = 5`. -/
def maxReconnectAttempts : Nat := 5

/-- Constant `WhatsAppService.reconnectDelay = 5000` milliseconds. -/
def reconnectDelay : Nat := 5000

/-- Observable effect of one `WhatsAppService.handleReconnect` run on an
existing instance: the counter afterwards, the backoff delay slept before
re-connecting (none when the run gives up), the disconnect reason emitted,
and the status written. -/
structure ReconnectStep where
  reconnectAttempts : Nat
  scheduledDelay : Option Nat
  emittedReason : Option String
  statusSet : Option WhatsAppAccountStatus
deriving DecidableEq, Repr

/-- Embedding of `WhatsAppService.handleReconnect`: if the counter has reached the cap,
mark DISCONNECTED, emit reason max_reconnect_attempts and stop; otherwise
increment the counter and schedule a reconnection after
`reconnectDelay * attempts` milliseconds. -/
def handleReconnect (attempts : Nat) : ReconnectStep :=
  if maxReconnectAttempts ≤ attempts then
    { reconnectAttempts := attempts, scheduledDelay := none,
      emittedReason := some "max_reconnect_attempts",
      statusSet := some WhatsAppAccountStatus.DISCONNECTED }
  else
    { reconnectAttempts := attempts + 1,
      scheduledDelay := some (reconnectDelay * (attempts + 1)),
      emittedReason := none, statusSet := none }

/-- The reconnect counter after `k` further close-triggered
`handleReconnect` runs (with no successful open in between, which is the
only thing that resets the counter). -/
def iterateReconnect : Nat → Nat → Nat
  | 0, attempts => attempts
  | k + 1, attempts => iterateReconnect k (handleReconnect attempts).reconnectAttempts

/-- Claim C6: the delay before reconnect attempt number n is
`reconnectDelay * n`, hence strictly increasing in the attempt number; once
the counter reaches the maximum, the run sets DISCONNECTED, emits reason
max_reconnect_attempts and schedules nothing; and however many further
close events arrive, no reconnect is ever scheduled again (the counter
never resets without an explicit re-initialize). -/
theorem claim_C6 :
    (∀ n, n < maxReconnectAttempts →
      (handleReconnect n).scheduledDelay = some (reconnectDelay * (n + 1)) ∧
      (handleReconnect n).reconnectAttempts = n + 1) ∧
    (∀ n m, n < m → reconnectDelay * n < reconnectDelay * m) ∧
    (∀ n, maxReconnectAttempts ≤ n →
      handleReconnect n =
        ⟨n, none, some "max_reconnect_attempts",
          some WhatsAppAccountStatus.DISCONNECTED⟩) ∧
    (∀ k n, maxReconnectAttempts ≤ n →
      iterateReconnect k n = n ∧
      (handleReconnect (iterateReconnect k n)).scheduledDelay = none) := by
  refine ⟨?_, ?_, ?_, ?_⟩
  · intro n h
    have hn : ¬ maxReconnectAttempts ≤ n := Nat.not_le.mpr h
    simp [handleReconnect, hn]
  · intro n m h
    simp only [reconnectDelay]
    omega
  · intro n h
    simp [handleReconnect, h]
  · intro k n h
    have hfix : iterateReconnect k n = n := by
      induction k with
      | zero => rfl
      | succ k ih =>
        show iterateReconnect k (handleReconnect n).reconnectAttempts = n
        rw [show (handleReconnect n).reconnectAttempts = n by simp [handleReconnect, h]]
        exact ih
    refine ⟨hfix, ?_⟩
    rw [hfix]
    simp [handleReconnect, h]

theorem claim_C6_witness :
    (0 < maxReconnectAttempts ∧
      (handleReconnect 0).scheduledDelay = some (reconnectDelay * (0 + 1))) ∧
    (maxReconnectAttempts ≤ 5 ∧ iterateReconnect 3 5 = 5 ∧
      (handleReconnect (iterateReconnect 3 5)).scheduledDelay = none) :=
  ⟨⟨by decide, (claim_C6.1 0 (by decide)).1⟩,
    ⟨by decide, claim_C6.2.2.2 3 5 (by decide)⟩⟩

/-- Baileys `DisconnectReason.loggedOut` (status code 401). -/
def loggedOutCode : Nat := 401

/-- Per-account state observed by the close-event handling: whether the
hashed session directory still exists on disk, whether the in-memory
instance is still registered, the account status, and the reconnect
counter. -/
structure AccountState where
  sessionFilesPresent : Bool
  instancePresent : Bool
  status : WhatsAppAccountStatus
  reconnectAttempts : Nat
deriving DecidableEq, Repr

/-- Observable result of handling one `connection === 'close'` event. -/
structure CloseResult where
  state : AccountState
  emittedReason : Option String
  reconnectScheduled : Bool
deriving DecidableEq, Repr

/-- Embedding of `WhatsAppService.handleLoggedOut`: remove the session directory, mark
the account DISCONNECTED, delete the in-memory instance, and emit a
disconnected event with reason logged_out. -/
def handleLoggedOut (s : AccountState) : CloseResult :=
  { state := { s with
      sessionFilesPresent := false
      instancePresent := false
      status := WhatsAppAccountStatus.DISCONNECTED }
    emittedReason := some "logged_out"
    reconnectScheduled := false }

/-- The `connection === 'close'` branch of
`WhatsAppService.handleConnectionUpdate`:
`shouldReconnect = statusCode !== DisconnectReason.loggedOut`; a logged-out
code runs `handleLoggedOut`; otherwise, unless the service is shutting
down, `handleReconnect` runs; otherwise the account is just marked
DISCONNECTED. -/
def onConnectionClose (statusCode : Option Nat) (isShuttingDown : Bool)
    (s : AccountState) : CloseResult :=
  let shouldReconnect := statusCode ≠ some loggedOutCode
  if statusCode = some loggedOutCode then
    handleLoggedOut s
  else if shouldReconnect ∧ ¬ isShuttingDown = true then
    let r := handleReconnect s.reconnectAttempts
    { state := { s with
        reconnectAttempts := r.reconnectAttempts
        status := r.statusSet.getD s.status }
      emittedReason := r.emittedReason
      reconnectScheduled := r.scheduledDelay.isSome }
  else
    { state := { s with status := WhatsAppAccountStatus.DISCONNECTED }
      emittedReason := none
      reconnectScheduled := false }

/-- Claim C7: a close event carrying the logged-out reason code always
deletes the session material, removes the instance, leaves the account in
the terminal DISCONNECTED state, emits a disconnected event with reason
logged_out, and schedules no reconnect — regardless of the prior state or
of the shutting-down flag. -/
theorem claim_C7 (isShuttingDown : Bool) (s : AccountState) :
    onConnectionClose (some loggedOutCode) isShuttingDown s =
      { state := { s with
          sessionFilesPresent := false
          instancePresent := false
          status := WhatsAppAccountStatus.DISCONNECTED }
        emittedReason := some "logged_out"
        reconnectScheduled := false } := by
  simp [onConnectionClose, handleLoggedOut]

/-- The supervisor's `instances: Map<string, WhatsAppInstance>` modelled as
an association list with JS-Map semantics. -/
abbrev InstanceMap : Type := List (String × WhatsAppInstance)

/-- JS `Map.has`. -/
def mapHas (m : InstanceMap) (k : String) : Bool :=
  m.any (fun p => decide (p.1 = k))

/-- JS `Map.set`: replace the entry when the key is present, append otherwise. -/
def mapSet (m : InstanceMap) (k : String) (v : WhatsAppInstance) : InstanceMap :=
  if mapHas m k then m.map (fun p => if p.1 = k then (k, v) else p)
  else m ++ [(k, v)]

/-- JS `Map.delete`. -/
def mapDelete (m : InstanceMap) (k : String) : InstanceMap :=
  m.filter (fun p => decide (¬ p.1 = k))

/-- JS `Map.get`. -/
def mapLookup : InstanceMap → String → Option WhatsAppInstance
  | [], _ => none
  | p :: rest, k => if p.1 = k then some p.2 else mapLookup rest k

/-- Events emitted by the supervisor operations modelled here. -/
inductive SupervisorEvent where
  | disconnected (accountId : String) (reason : String)
deriving DecidableEq, Repr

/-- Embedding of `WhatsAppService.disconnectAccount`: unknown accounts are a logged
no-op; otherwise listeners are detached and a best-effort logout runs
(failures swallowed), the instance is removed from the map, the account is
persisted DISCONNECTED, and a disconnected event with reason manual is
emitted. -/
def disconnectAccount (accountId : String) (m : InstanceMap) :
    InstanceMap × List SupervisorEvent :=
  if mapHas m accountId then
    (mapDelete m accountId, [SupervisorEvent.disconnected accountId "manual"])
  else (m, [])

/-- The fresh instance allocated by `initializeAccount`: `socket: null`,
status CONNECTING, reconnectAttempts 0. -/
def freshInstance : WhatsAppInstance :=
  ⟨false, WhatsAppAccountStatus.CONNECTING, 0⟩

/-- Embedding of `WhatsAppService.initializeAccount`: when an instance already exists
for the accountId, `disconnectAccount` tears it down first; then a fresh
CONNECTING instance is registered. (The subsequent `connectAccount` I/O
step is outside this model.) -/
def initializeAccount (accountId : String) (m : InstanceMap) :
    InstanceMap × List SupervisorEvent :=
  let torn := if mapHas m accountId then disconnectAccount accountId m else (m, [])
  (mapSet torn.1 accountId freshInstance, torn.2)

/-- The supervisor operations that create and destroy instances. -/
inductive SupervisorOp where
  | init (accountId : String)
  | disconnect (accountId : String)

/-- Apply one supervisor operation to the instance map. -/
def applyOp (m : InstanceMap) : SupervisorOp → InstanceMap
  | SupervisorOp.init accountId => (initializeAccount accountId m).1
  | SupervisorOp.disconnect accountId => (disconnectAccount accountId m).1

/-- Apply a sequence of supervisor operations. -/
def runOps : List SupervisorOp → InstanceMap → InstanceMap
  | [], m => m
  | op :: ops, m => runOps ops (applyOp m op)

/-- Number of entries stored under a key. -/
def countKey : InstanceMap → String → Nat
  | [], _ => 0
  | p :: rest, k => (if p.1 = k then 1 else 0) + countKey rest k

theorem countKey_filter_le (m : InstanceMap) (f : String × WhatsAppInstance → Bool)
    (k : String) : countKey (m.filter f) k ≤ countKey m k := by
  induction m with
  | nil => exact Nat.le_refl _
  | cons p rest ih =>
    by_cases hf : f p = true
    · simp only [List.filter_cons, hf, if_true, countKey]
      exact Nat.add_le_add_left ih _
    · simp only [List.filter_cons, hf, Bool.false_eq_true, if_false, countKey]
      exact Nat.le_trans ih (Nat.le_add_left _ _)

theorem countKey_mapDelete_self (m : InstanceMap) (k : String) :
    countKey (mapDelete m k) k = 0 := by
  induction m with
  | nil => rfl
  | cons p rest ih =>
    by_cases hp : p.1 = k
    · simpa [mapDelete, List.filter_cons, hp] using ih
    · simpa [mapDelete, List.filter_cons, hp, countKey] using ih

theorem countKey_eq_zero_of_not_has {m : InstanceMap} {k : String}
    (h : mapHas m k = false) : countKey m k = 0 := by
  induction m with
  | nil => rfl
  | cons p rest ih =>
    obtain ⟨h1, h2⟩ : ¬ p.1 = k ∧ mapHas rest k = false := by
      simpa [mapHas] using h
    simp only [countKey, h1, if_false]
    simpa using ih h2

theorem mapHas_mapDelete_self (m : InstanceMap) (k : String) :
    mapHas (mapDelete m k) k = false := by
  induction m with
  | nil => rfl
  | cons p rest ih =>
    by_cases hp : p.1 = k
    · simpa [mapDelete, List.filter_cons, hp] using ih
    · simpa [mapDelete, mapHas, List.filter_cons, hp] using ih

theorem countKey_map_replace (m : InstanceMap) (k : String) (v : WhatsAppInstance)
    (id : String) :
    countKey (m.map (fun p => if p.1 = k then (k, v) else p)) id = countKey m id := by
  induction m with
  | nil => rfl
  | cons p rest ih =>
    by_cases hp : p.1 = k
    · simp only [List.map_cons, hp, if_true, countKey, ih, hp]
    · simp only [List.map_cons, hp, if_false, countKey, ih]

theorem countKey_append (m1 m2 : InstanceMap) (id : String) :
    countKey (m1 ++ m2) id = countKey m1 id + countKey m2 id := by
  induction m1 with
  | nil => simp [countKey]
  | cons p rest ih =>
    show (if p.1 = id then 1 else 0) + countKey (rest ++ m2) id =
      ((if p.1 = id then 1 else 0) + countKey rest id) + countKey m2 id
    rw [ih]
    omega

theorem countKey_mapSet (m : InstanceMap) (k : String) (v : WhatsAppInstance)
    (id : String) :
    countKey (mapSet m k v) id =
      if mapHas m k = true then countKey m id
      else countKey m id + (if k = id then 1 else 0) := by
  by_cases h : mapHas m k = true
  · simp [mapSet, h, countKey_map_replace]
  · simp only [mapSet, h, Bool.false_eq_true, if_false, countKey_append, countKey]
    omega

theorem countKey_applyOp_le_one {m : InstanceMap}
    (hinv : ∀ id, countKey m id ≤ 1) (op : SupervisorOp) :
    ∀ id, countKey (applyOp m op) id ≤ 1 := by
  cases op with
  | disconnect accountId =>
    intro id
    simp only [applyOp, disconnectAccount]
    by_cases h : mapHas m accountId = true
    · simp only [h, if_true]
      exact Nat.le_trans (countKey_filter_le m _ id) (hinv id)
    · simp only [h, Bool.false_eq_true, if_false]
      exact hinv id
  | init accountId =>
    intro id
    simp only [applyOp, initializeAccount]
    by_cases h : mapHas m accountId = true
    · simp only [h, if_true, disconnectAccount]
      rw [countKey_mapSet, mapHas_mapDelete_self]
      simp only [Bool.false_eq_true, if_false]
      by_cases hid : accountId = id
      · subst hid
        rw [countKey_mapDelete_self]
        simp
      · simp only [hid, if_false, Nat.add_zero]
        exact Nat.le_trans (countKey_filter_le m _ id) (hinv id)
    · simp only [h, Bool.false_eq_true, if_false]
      rw [countKey_mapSet, if_neg h]
      by_cases hid : accountId = id
      · subst hid
        rw [countKey_eq_zero_of_not_has (by simpa using h)]
        simp
      · simp only [hid, if_false, Nat.add_zero]
        exact hinv id

theorem mapLookup_append_of_not_has {m : InstanceMap} {k : String}
    (h : mapHas m k = false) (v : WhatsAppInstance) :
    mapLookup (m ++ [(k, v)]) k = some v := by
  induction m with
  | nil => simp [mapLookup]
  | cons p rest ih =>
    obtain ⟨h1, h2⟩ : ¬ p.1 = k ∧ mapHas rest k = false := by
      simpa [mapHas] using h
    simp only [List.cons_append, mapLookup, h1, if_false]
    exact ih h2

theorem mapLookup_map_replace {m : InstanceMap} {k : String}
    (h : mapHas m k = true) (v : WhatsAppInstance) :
    mapLookup (m.map (fun p => if p.1 = k then (k, v) else p)) k = some v := by
  induction m with
  | nil => simp [mapHas] at h
  | cons p rest ih =>
    by_cases hp : p.1 = k
    · simp [mapLookup, List.map_cons, hp]
    · have h' : mapHas rest k = true := by
        simpa [mapHas, hp] using h
      simp only [List.map_cons, hp, if_false, mapLookup]
      exact ih h'

theorem mapLookup_mapSet (m : InstanceMap) (k : String) (v : WhatsAppInstance) :
    mapLookup (mapSet m k v) k = some v := by
  by_cases h : mapHas m k = true
  · simp only [mapSet, h, if_true]
    exact mapLookup_map_replace h v
  · simp only [mapSet, h, Bool.false_eq_true, if_false]
    exact mapLookup_append_of_not_has (by simpa using h) v

/-- Claim C8: starting from the empty instance map, any sequence of
initializeAccount / disconnectAccount operations leaves at most one
instance per accountId; initializing an accountId that already has an
instance first performs the disconnectAccount teardown (removing the old
instance and emitting the manual-disconnect event) and then registers a
fresh, CONNECTING instance; initializing a new accountId registers the
fresh instance with no teardown event. -/
theorem claim_C8 :
    (∀ ops accountId, countKey (runOps ops []) accountId ≤ 1) ∧
    (∀ m accountId, mapHas m accountId = true →
      initializeAccount accountId m =
        (mapSet (disconnectAccount accountId m).1 accountId freshInstance,
          [SupervisorEvent.disconnected accountId "manual"]) ∧
      mapLookup (initializeAccount accountId m).1 accountId = some freshInstance ∧
      freshInstance.status = WhatsAppAccountStatus.CONNECTING) ∧
    (∀ m accountId, mapHas m accountId = false →
      initializeAccount accountId m = (mapSet m accountId freshInstance, []) ∧
      mapLookup (initializeAccount accountId m).1 accountId = some freshInstance) := by
  refine ⟨?_, ?_, ?_⟩
  · have hrun : ∀ ops (m : InstanceMap), (∀ id, countKey m id ≤ 1) →
        ∀ id, countKey (runOps ops m) id ≤ 1 := by
      intro ops
      induction ops with
      | nil => intro m h id; exact h id
      | cons op ops ih =>
        intro m h id
        exact ih _ (countKey_applyOp_le_one h op) id
    intro ops accountId
    exact hrun ops [] (fun id => by simp [countKey]) accountId
  · intro m accountId h
    refine ⟨by simp [initializeAccount, disconnectAccount, h], ?_, rfl⟩
    simp only [initializeAccount, h, if_true]
    exact mapLookup_mapSet _ _ _
  · intro m accountId h
    refine ⟨by simp [initializeAccount, h], ?_⟩
    simp only [initializeAccount, h, Bool.false_eq_true, if_false]
    exact mapLookup_mapSet _ _ _

/-- A one-account instance map for the witness. -/
def demoInstances : InstanceMap :=
  [("acct1", ⟨true, WhatsAppAccountStatus.CONNECTED, 0⟩)]

theorem claim_C8_witness :
    mapHas demoInstances "acct1" = true ∧
    mapLookup (initializeAccount "acct1" demoInstances).1 "acct1" =
      some freshInstance :=
  ⟨rfl, (claim_C8.2.1 demoInstances "acct1" rfl).2.1⟩

/-- Modelled from the spec: the `MessageType` enum lives in
src/types/index.ts, which is not among the analysed sources. The spec's
CanonicalMessage lists contentKind as the enum
text/image/video/audio/document/sticker/location/contact/unsupported; the
parse switch in whatsapp.service.ts only ever assigns the first eight. -/
inductive MessageType where
  | TEXT
  | IMAGE
  | VIDEO
  | AUDIO
  | DOCUMENT
  | STICKER
  | LOCATION
  | CONTACT
  | UNSUPPORTED
deriving DecidableEq, Repr

/-- The discriminated payload of an inbound protocol message: one
constructor per key that `getContentType` can report to the parse switch,
carrying the fields the switch reads; `unknown` covers every discriminator
outside the nine-case switch. Location degrees are kept as their decimal
renderings, since no claim depends on their numeric structure. -/
inductive MessagePayload where
  | conversation (text : String)
  | extendedTextMessage (text : Option String)
  | imageMessage (caption : Option String)
  | videoMessage (caption : Option String)
  | audioMessage
  | documentMessage (fileName : Option String)
  | stickerMessage
  | locationMessage (degrees : Option (String × String))
  | contactMessage (displayName : Option String)
  | unknown (tag : String)
deriving DecidableEq, Repr

/-- JS `x || dflt` on an optional string: both undefined and the empty
string are falsy and select the default. -/
def jsOrElse (s : Option String) (dflt : String) : String :=
  match s with
  | none => dflt
  | some t => if t = "" then dflt else t

/-- JS `x || undefined` on an optional string. -/
def jsOrUndefined (s : Option String) : Option String :=
  match s with
  | none => none
  | some t => if t = "" then none else some t

/-- The fields of a Baileys message key read by `parseMessage`. -/
structure WAMessageKey where
  remoteJid : Option String
  fromMe : Bool
  id : Option String
deriving DecidableEq, Repr

/-- The fields of a raw inbound `WAMessage` read by `parseMessage`. -/
structure WAMessage where
  key : WAMessageKey
  message : Option MessagePayload
  messageTimestamp : Option Nat
  pushName : Option String
deriving DecidableEq, Repr

/-- The canonical `WhatsAppMessage` record produced by `parseMessage`
(`from_` and `to_` embed the source's `from` and `to` fields, both Lean
keywords). -/
structure WhatsAppMessage where
  id : String
  from_ : String
  to_ : String
  type : MessageType
  content : String
  mediaUrl : Option String
  timestamp : Nat
  isGroup : Bool
  pushName : Option String
deriving DecidableEq, Repr

/-- Modelled from the spec: `extractPhoneNumber` lives in
src/utils/helpers.ts, which is not among the analysed sources. The spec
describes the sender field as a normalized address derived from the
protocol JID; modelled as the JID with its protocol-domain suffix (from
the first at-sign on) removed. -/
def extractPhoneNumber (jid : String) : String :=
  (jid.splitOn "@").headD jid

/-- Embedding of `WhatsAppService.parseMessage`. `freshId` stands for the
`crypto.randomUUID()` fallback and `nowMs` for `Date.now()`. Returns
`none` exactly where the source returns null: no content, or no sender
JID. The switch starts from `type = 'TEXT'` and the default case only
replaces the content with the fixed placeholder. -/
def parseMessage (accountId : String) (freshId : String) (nowMs : Nat)
    (msg : WAMessage) : Option WhatsAppMessage :=
  match msg.message with
  | none => none
  | some messageContent =>
    match msg.key.remoteJid with
    | none => none
    | some fromJid =>
      let isGroup := fromJid.endsWith "@g.us"
      let parsed : MessageType × String :=
        match messageContent with
        | MessagePayload.conversation t => (MessageType.TEXT, t)
        | MessagePayload.extendedTextMessage t => (MessageType.TEXT, jsOrElse t "")
        | MessagePayload.imageMessage cap =>
          (MessageType.IMAGE, jsOrElse cap "[Image]")
        | MessagePayload.videoMessage cap =>
          (MessageType.VIDEO, jsOrElse cap "[Video]")
        | MessagePayload.audioMessage => (MessageType.AUDIO, "[Audio message]")
        | MessagePayload.documentMessage f =>
          (MessageType.DOCUMENT, jsOrElse f "[Document]")
        | MessagePayload.stickerMessage => (MessageType.STICKER, "[Sticker]")
        | MessagePayload.locationMessage d =>
          (MessageType.LOCATION,
            match d with
            | some deg => "[Location: " ++ deg.1 ++ ", " ++ deg.2 ++ "]"
            | none => "[Location]")
        | MessagePayload.contactMessage n =>
          (MessageType.CONTACT, jsOrElse n "[Contact]")
        | MessagePayload.unknown _ => (MessageType.TEXT, "[Unsupported message type]")
      some
        { id := jsOrElse msg.key.id freshId
          from_ := extractPhoneNumber fromJid
          to_ := accountId
          type := parsed.1
          content := parsed.2
          mediaUrl := none
          timestamp :=
            match msg.messageTimestamp with
            | some t => t * 1000
            | none => nowMs
          isGroup := isGroup
          pushName := jsOrUndefined msg.pushName }

/-- A concrete inbound message whose payload discriminator matches none of
the nine supported kinds. -/
def unknownPayloadMsg : WAMessage :=
  { key :=
      { remoteJid := some "15551234567@s.whatsapp.net"
        fromMe := false
        id := some "MSG1" }
    message := some (MessagePayload.unknown "pollCreationMessage")
    messageTimestamp := some 1700000000
    pushName := some "Alice" }

/-- Claim C2 counterexample: on a concrete payload with an unrecognized
content discriminator, parseMessage produces a record (the event is not
dropped) whose contentKind is TEXT — not the unsupported marker — refuting
"contentKind equals the unsupported marker" as stated. -/
theorem claim_C2_counterexample :
    (parseMessage "acct1" "uuid-1" 0 unknownPayloadMsg).map WhatsAppMessage.type =
      some MessageType.TEXT ∧
    (parseMessage "acct1" "uuid-1" 0 unknownPayloadMsg).map WhatsAppMessage.type ≠
      some MessageType.UNSUPPORTED := by
  constructor
  · rfl
  · decide

/-- Claim C2 (amended): for every inbound message whose payload carries an
unrecognized content discriminator and a sender JID, parsing produces a
canonical record whose contentKind is the TEXT kind and whose text is the
fixed placeholder string; the event is neither dropped nor does parsing
raise an error. -/
theorem claim_C2 (accountId freshId : String) (nowMs : Nat) (msg : WAMessage)
    (tag jid : String) (hmsg : msg.message = some (MessagePayload.unknown tag))
    (hjid : msg.key.remoteJid = some jid) :
    (parseMessage accountId freshId nowMs msg).isSome = true ∧
    (parseMessage accountId freshId nowMs msg).map WhatsAppMessage.type =
      some MessageType.TEXT ∧
    (parseMessage accountId freshId nowMs msg).map WhatsAppMessage.content =
      some "[Unsupported message type]" := by
  simp [parseMessage, hmsg, hjid]

theorem claim_C2_witness :
    unknownPayloadMsg.message =
      some (MessagePayload.unknown "pollCreationMessage") ∧
    (parseMessage "acct1" "uuid-1" 0 unknownPayloadMsg).map
        WhatsAppMessage.content = some "[Unsupported message type]" :=
  ⟨rfl, (claim_C2 "acct1" "uuid-1" 0 unknownPayloadMsg "pollCreationMessage"
    "15551234567@s.whatsapp.net" rfl rfl).2.2⟩
